import Mathlib

/-!
Verification development for the CAT Tiles API repository.

The repository is a FastAPI configuration/routing layer (src/api.py) on top
of the TiTiler tiling framework and the GDAL/rasterio raster stack.  The
wrapper code (environment configuration, middleware, path dependency,
health endpoints) is embedded directly from src/api.py.  The tile-serving
core that the accompanying design document specifies (RangeFetcher,
TileCache, RequestCoalescer, TileServiceFacade) is not present in the
repository sources; those components are modelled here from the words of
the design document, and each such definition is marked
`Modelled from the spec:` in its doc comment.
-/

/- ===================================================================
   Process environment model (os.environ in src/api.py)
   =================================================================== -/

/-- The process environment: an association list of variable names to
values.  Assignment shadows older bindings, lookup returns the newest,
matching Python dict semantics for `os.environ`. -/
abbrev Env : Type := List (String × String)

/-- `os.environ[k] = v` -/
def envSet (e : Env) (k v : String) : Env := (k, v) :: e

/-- `os.environ.get(k)` -/
def envGet (e : Env) (k : String) : Option String :=
  (List.find? (fun p => p.1 == k) e).map (fun p => p.2)

/-- Module initialization of src/api.py, lines 27-34: the five
`os.environ` assignments executed at import time, before any request is
served (GDAL configuration and anonymous GCS access). -/
def moduleInit (e : Env) : Env :=
  envSet
    (envSet
      (envSet
        (envSet
          (envSet e "GDAL_DISABLE_READDIR_ON_OPEN" "EMPTY_DIR")
          "CPL_VSIL_CURL_ALLOWED_EXTENSIONS" ".tif,.tiff")
        "GDAL_HTTP_TIMEOUT" "300")
      "GDAL_HTTP_CONNECTTIMEOUT" "60")
    "GS_NO_SIGN_REQUEST" "YES"

/- ===================================================================
   Wrapper layer embedded from src/api.py
   =================================================================== -/

/-- An HTTP request as the wrapper observes it: a path, an optional
`url` query parameter, and the remaining query parameters. -/
structure HttpRequest where
  path : String
  url : Option String
  query : List (String × String)
deriving DecidableEq

/-- The flag computation of the middleware body (src/api.py lines
192-194): `is_url`, `is_gcs`, `is_vsigs`.  The middleware only logs
these flags; they never influence the response. -/
def gcsPathFlags (decoded_url : String) : Bool × Bool × Bool :=
  ( decoded_url.startsWith "http://" || decoded_url.startsWith "https://"
  , decoded_url.startsWith "gs://"
  , decoded_url.startsWith "/vsigs/" )

/-- Middleware `log_and_handle_gcs_paths` (src/api.py lines 176-200).
Its body inspects the path and the `url` query parameter purely to emit
log lines (the computed flags are never used in the data flow), then
awaits `call_next(request)` and returns that response unchanged. -/
def log_and_handle_gcs_paths {ρ : Type} (call_next : HttpRequest → ρ)
    (request : HttpRequest) : ρ :=
  call_next request

/-- Path dependency `GCSPathParams` (src/api.py lines 206-212): receives
the `url` query parameter, logs it, and returns it unchanged.  No
validation, rewriting, or rejection is performed. -/
def GCSPathParams (url : String) : String := url

/-- A TiTiler route as produced by `TilerFactory(path_dependency=...)`
(src/api.py line 219): the underlying tiling core is invoked on the
request whose `url` parameter has been passed through the path
dependency.  The core itself is external (the TiTiler/GDAL stack) and is
therefore kept abstract. -/
def tilerRoute {ρ : Type} (core : HttpRequest → ρ)
    (pathDep : String → String) (request : HttpRequest) : ρ :=
  core { request with url := request.url.map pathDep }

/-- A tile-serving endpoint of the application (src/api.py line 229):
the middleware wrapped around the TiTiler route built with
`GCSPathParams` as the path dependency. -/
def appTileEndpoint {ρ : Type} (core : HttpRequest → ρ)
    (request : HttpRequest) : ρ :=
  log_and_handle_gcs_paths (tilerRoute core GCSPathParams) request

/-- The behaviour the spec sentence describes: the underlying TiTiler
factory invoked with the request and its `url` parameter passed through
unchanged, with no added behaviour. -/
def specDirectTiler {ρ : Type} (core : HttpRequest → ρ)
    (request : HttpRequest) : ρ :=
  core request

/- ===================================================================
   health_check endpoint (src/api.py lines 380-392)
   =================================================================== -/

/-- The JSON object returned by the `/health` endpoint. -/
structure HealthResponse where
  status : String
  message : String
  gcs_enabled : Bool
  gdal_config : List (String × Option String)
deriving DecidableEq

/-- `health_check` (src/api.py lines 380-392). -/
def health_check (e : Env) : HealthResponse :=
  { status := "healthy"
  , message := "CAT Tiles API is operational"
  , gcs_enabled := envGet e "GS_NO_SIGN_REQUEST" == some "YES"
  , gdal_config :=
      [ ("GDAL_DISABLE_READDIR_ON_OPEN", envGet e "GDAL_DISABLE_READDIR_ON_OPEN")
      , ("CPL_VSIL_CURL_ALLOWED_EXTENSIONS", envGet e "CPL_VSIL_CURL_ALLOWED_EXTENSIONS")
      , ("GS_NO_SIGN_REQUEST", envGet e "GS_NO_SIGN_REQUEST") ] }

/- ===================================================================
   test_gcs_access endpoint (src/api.py lines 398-431)
   =================================================================== -/

/-- The metadata rasterio exposes on an opened source, as read by
`test_gcs_access`. -/
structure SrcMeta where
  driver : String
  width : Nat
  height : Nat
  crs : String
  bounds : List Int
deriving DecidableEq

/-- A FastAPI `HTTPException` as raised by `test_gcs_access`. -/
structure HTTPExceptionModel where
  status_code : Nat
  detail : String
deriving DecidableEq

/-- The success dictionary returned by `test_gcs_access`. -/
structure GcsTestSuccess where
  status : String
  url : String
  driver : String
  width : Nat
  height : Nat
  crs : String
  bounds : List Int
deriving DecidableEq

/-- `test_gcs_access` (src/api.py lines 398-431).  `opener` stands for
`rasterio.open`, an external effect: it either yields the opened source
metadata or raises (represented as `Except.error` carrying the exception
message). -/
def test_gcs_access (opener : String → Except String SrcMeta)
    (bucket : String) (file_path : String) :
    Except HTTPExceptionModel GcsTestSuccess :=
  let test_url := "gs://" ++ bucket ++ "/" ++ file_path
  match opener test_url with
  | Except.ok src =>
      Except.ok
        { status := "success"
        , url := test_url
        , driver := src.driver
        , width := src.width
        , height := src.height
        , crs := src.crs
        , bounds := src.bounds }
  | Except.error e =>
      Except.error
        { status_code := 500
        , detail := "Failed to access GCS file: " ++ e }

/- ===================================================================
   RangeFetcher: retry and backoff
   =================================================================== -/

/-- Modelled from the spec: the outcome of one attempt of the
object-store collaborator `FetchRange` (spec section 6:
`bytes | {NotFound, PermissionDenied, Transient}`).  The RangeFetcher
itself is absent from src/. -/
inductive FetchOutcome where
  | ok (bytes : List Nat)
  | transient
  | notFound
  | permissionDenied
deriving DecidableEq

/-- Modelled from the spec: the classified errors `FetchRange` can
surface after retry handling (spec section 7 error taxonomy, restricted
to the fetch path). -/
inductive FetchError where
  | timeout
  | notFound
  | permissionDenied
deriving DecidableEq

/-- Modelled from the spec: the exponential backoff delay before retry
number `k + 1`, doubling from a base delay (spec 4.1: retries with
exponential backoff). -/
def backoffDelayMs (base k : Nat) : Nat := base * 2 ^ k

/-- Modelled from the spec: the retry loop of `FetchRange` (spec 4.1).
`f attempt` is the outcome of attempt number `attempt` (0-based);
`fuel` is the number of retries still allowed.  Transient outcomes are
retried after an exponential backoff delay; `NotFound` and
`PermissionDenied` fail immediately.  Returns the classified result,
the number of attempts performed, and the backoff delays waited. -/
def fetchRangeAux (f : Nat → FetchOutcome) (base : Nat) :
    Nat → Nat → List Nat → (Except FetchError (List Nat)) × Nat × List Nat
  | attempt, fuel, delays =>
    match f attempt, fuel with
    | FetchOutcome.ok b, _ => (Except.ok b, attempt + 1, delays)
    | FetchOutcome.notFound, _ => (Except.error FetchError.notFound, attempt + 1, delays)
    | FetchOutcome.permissionDenied, _ =>
        (Except.error FetchError.permissionDenied, attempt + 1, delays)
    | FetchOutcome.transient, 0 => (Except.error FetchError.timeout, attempt + 1, delays)
    | FetchOutcome.transient, fuel' + 1 =>
        fetchRangeAux f base (attempt + 1) fuel' (delays ++ [backoffDelayMs base attempt])

/-- Modelled from the spec: `FetchRange` with a bounded attempt count
`limit` (spec 4.1: bounded attempt count; at least one attempt is
made, then at most `limit - 1` retries). -/
def fetchRange (f : Nat → FetchOutcome) (limit base : Nat) :
    (Except FetchError (List Nat)) × Nat × List Nat :=
  fetchRangeAux f base 0 (limit - 1) []

/- ===================================================================
   RangeFetcher: timeout enforcement
   =================================================================== -/

/-- Modelled from the spec: the timeout limits the RangeFetcher enforces
per range read (spec section 5: a connect timeout and an overall read
timeout per range). -/
structure TimeoutCfg where
  connectTimeoutMs : Nat
  readTimeoutMs : Nat
deriving DecidableEq

/-- Modelled from the spec: one byte-range read under timeout
enforcement (spec section 5).  `connectMs` and `readMs` are the times
the connection and the overall read took; exceeding either limit
surfaces as a retryable transient error. -/
def attemptRead (cfg : TimeoutCfg) (connectMs readMs : Nat)
    (bytes : List Nat) : FetchOutcome :=
  if cfg.connectTimeoutMs < connectMs then FetchOutcome.transient
  else if cfg.readTimeoutMs < readMs then FetchOutcome.transient
  else FetchOutcome.ok bytes

/- ===================================================================
   TileCache: bounded LRU keyed cache (spec 4.5)
   =================================================================== -/

/-- A cache entry: key paired with the stored tile bytes. -/
abbrev CacheEntry : Type := String × List Nat

/-- The byte size of one entry. -/
def entrySize (e : CacheEntry) : Nat := e.2.length

/-- Total bytes held by a list of entries. -/
def totalBytes (l : List CacheEntry) : Nat := (l.map entrySize).sum

/-- Modelled from the spec: the TileCache (spec 4.5), absent from src/.
`entries` is ordered least-recently-used first (the head is evicted
first); `budget` is the configured total byte budget. -/
structure TileCache where
  entries : List CacheEntry
  budget : Nat

/-- Modelled from the spec: synchronous eviction (spec 4.5) — drop
least-recently-used entries (from the head) until an incoming entry of
`n` bytes fits within `budget`. -/
def evictToFit (budget n : Nat) : List CacheEntry → List CacheEntry
  | [] => []
  | e :: rest =>
      if totalBytes (e :: rest) + n ≤ budget then e :: rest
      else evictToFit budget n rest

/-- Modelled from the spec: `Put(key, bytes)` (spec 4.5).  Rejects the
insert when the single entry alone exceeds the total budget; otherwise
evicts least-recently-used entries until the new entry fits and inserts
it as most recently used. -/
def cachePut (c : TileCache) (k : String) (v : List Nat) : TileCache :=
  if c.budget < v.length then c
  else
    let pruned := c.entries.filter (fun e => e.1 != k)
    { c with entries := evictToFit c.budget v.length pruned ++ [(k, v)] }

/-- Modelled from the spec: `Get(key) -> bytes|miss` (spec 4.5).  A hit
refreshes recency by moving the entry to the most-recently-used end. -/
def cacheGet (c : TileCache) (k : String) : Option (List Nat) × TileCache :=
  match c.entries.find? (fun e => e.1 == k) with
  | none => (none, c)
  | some e =>
      (some e.2, { c with entries := c.entries.filter (fun x => x.1 != k) ++ [e] })

/- ===================================================================
   TileServiceFacade (spec 4.7)
   =================================================================== -/

/-- Modelled from the spec: a resolved source as the facade needs it —
its zoom range and per-zoom tile extent (spec: TileRequest invariant),
together with the deterministic decode/resample pipeline output
`tileBytes` and the number of byte-range fetches `tileFetches` that
pipeline performs (spec 4.7 orchestration; fetch-count instrumentation
from spec section 8). -/
structure SourceModel where
  minZoom : Nat
  maxZoom : Nat
  extentX : Nat → Nat × Nat
  extentY : Nat → Nat × Nat
  tileBytes : Nat → Nat → Nat → List Nat
  tileFetches : Nat → Nat → Nat → Nat

/-- Modelled from the spec: whether (z, x, y) maps to a valid tile
within the reprojected extent and zoom range of the source (spec:
TileRequest invariant; otherwise the request is out of range). -/
def inRange (s : SourceModel) (z x y : Nat) : Bool :=
  decide (s.minZoom ≤ z ∧ z ≤ s.maxZoom ∧
    (s.extentX z).1 ≤ x ∧ x ≤ (s.extentX z).2 ∧
    (s.extentY z).1 ≤ y ∧ y ≤ (s.extentY z).2)

/-- Modelled from the spec: the classified request error for
out-of-range coordinates (spec section 7 error taxonomy). -/
inductive TileError where
  | outOfRange
deriving DecidableEq

/-- Modelled from the spec: the cache key for a tile request (spec:
CacheEntry key derived from the request coordinates). -/
def cacheKey (z x y : Nat) : String :=
  toString z ++ "/" ++ toString x ++ "/" ++ toString y

/-- Modelled from the spec: `GetTile` (spec 4.7).  Out-of-range
coordinates yield the classified `OutOfRange` error before any pipeline
work; a cache hit returns immediately; a miss runs the pipeline and
stores the result.  Returns the classified result, the updated cache,
and the number of byte-range fetches performed by the call. -/
def getTile (s : SourceModel) (c : TileCache) (z x y : Nat) :
    (Except TileError (List Nat)) × TileCache × Nat :=
  if inRange s z x y then
    match cacheGet c (cacheKey z x y) with
    | (some b, c2) => (Except.ok b, c2, 0)
    | (none, c2) =>
        let b := s.tileBytes z x y
        (Except.ok b, cachePut c2 (cacheKey z x y) b, s.tileFetches z x y)
  else (Except.error TileError.outOfRange, c, 0)

/- ===================================================================
   RequestCoalescer (spec 4.6)
   =================================================================== -/

/-- Modelled from the spec: the coalescer state for one cache key (spec
4.6), absent from src/.  `waiting` is the in-flight entry: `none` when
no pipeline is running, otherwise the callers awaiting the single
execution.  `starts` counts pipeline executions started. -/
structure Coalescer where
  waiting : Option (List Nat)
  starts : Nat
deriving DecidableEq

/-- Modelled from the spec: the coalescer before any request. -/
def coInit : Coalescer := { waiting := none, starts := 0 }

/-- Modelled from the spec: caller `i` requests the key (spec 4.6).  If
no pipeline is in flight one is started; otherwise the caller joins the
existing in-flight entry. -/
def coArrive (s : Coalescer) (i : Nat) : Coalescer :=
  match s.waiting with
  | none => { waiting := some [i], starts := s.starts + 1 }
  | some l => { waiting := some (i :: l), starts := s.starts }

/-- Modelled from the spec: the single in-flight pipeline completes with
result `r` (spec 4.6).  Every waiter is delivered that same result and
the in-flight entry is removed. -/
def coComplete {α : Type} (s : Coalescer) (r : α) :
    Coalescer × List (Nat × α) :=
  match s.waiting with
  | some l => ({ waiting := none, starts := s.starts }, l.map (fun i => (i, r)))
  | none => (s, [])

/- ===================================================================
   Theorems
   =================================================================== -/

/-- C1: every tile-serving endpoint of the wrapper is behaviorally
identical to the underlying TiTiler factory invoked with the request
and its url parameter passed through unchanged: for every downstream
tiling core and every request, the middleware plus path-dependency
layer adds no behaviour of its own. -/
theorem wrapper_refines_titiler :
    ∀ (ρ : Type) (core : HttpRequest → ρ) (request : HttpRequest),
      appTileEndpoint core request = specDirectTiler core request := by
  intro ρ core request
  cases request with
  | mk p u q => cases u <;> rfl

/-- C8: GCSPathParams is the identity on its url argument: every string
is returned unchanged, with no validation, rewriting, or rejection. -/
theorem gcsPathParams_identity : ∀ url : String, GCSPathParams url = url :=
  fun _ => rfl

/-- C9: health_check always reports status healthy, its gcs_enabled
field equals the test that GS_NO_SIGN_REQUEST is the string YES, and
after module initialization (which sets that variable unconditionally)
the field is always true. -/
theorem health_check_spec :
    ∀ e : Env,
      (health_check e).status = "healthy" ∧
      (health_check e).gcs_enabled = (envGet e "GS_NO_SIGN_REQUEST" == some "YES") ∧
      ∀ e0 : Env, (health_check (moduleInit e0)).gcs_enabled = true := by
  intro e
  refine ⟨rfl, rfl, ?_⟩
  intro e0
  simp [health_check, moduleInit, envSet, envGet, List.find?]

/-- C7: module initialization sets the overall read timeout
(GDAL_HTTP_TIMEOUT = 300) and the connect timeout
(GDAL_HTTP_CONNECTTIMEOUT = 60) before any request is served, and the
modelled range read enforces both limits: exceeding either one yields a
retryable transient error, while a read within both limits returns the
bytes. -/
theorem timeouts_configured_and_enforced :
    ∀ e : Env,
      envGet (moduleInit e) "GDAL_HTTP_TIMEOUT" = some "300" ∧
      envGet (moduleInit e) "GDAL_HTTP_CONNECTTIMEOUT" = some "60" ∧
      ∀ (cfg : TimeoutCfg) (ct rt : Nat) (b : List Nat),
        (cfg.connectTimeoutMs < ct → attemptRead cfg ct rt b = FetchOutcome.transient) ∧
        (cfg.readTimeoutMs < rt → attemptRead cfg ct rt b = FetchOutcome.transient) ∧
        (ct ≤ cfg.connectTimeoutMs → rt ≤ cfg.readTimeoutMs →
          attemptRead cfg ct rt b = FetchOutcome.ok b) := by
  intro e
  refine ⟨?_, ?_, ?_⟩
  · simp [moduleInit, envSet, envGet, List.find?]
  · simp [moduleInit, envSet, envGet, List.find?]
  · intro cfg ct rt b
    refine ⟨?_, ?_, ?_⟩
    · intro h; simp [attemptRead, h]
    · intro h
      by_cases hc : cfg.connectTimeoutMs < ct <;> simp [attemptRead, hc, h]
    · intro h1 h2
      simp [attemptRead, Nat.not_lt.mpr h1, Nat.not_lt.mpr h2]

/-- Witness for the timeout theorem at concrete inputs. -/
theorem timeouts_configured_and_enforced_wit :
    envGet (moduleInit []) "GDAL_HTTP_TIMEOUT" = some "300" ∧
    attemptRead ⟨60, 300⟩ 61 0 [] = FetchOutcome.transient ∧
    attemptRead ⟨60, 300⟩ 0 301 [] = FetchOutcome.transient ∧
    attemptRead ⟨60, 300⟩ 60 300 [5] = FetchOutcome.ok [5] :=
  ⟨(timeouts_configured_and_enforced []).1,
   ((timeouts_configured_and_enforced []).2.2 ⟨60, 300⟩ 61 0 []).1 (by decide),
   ((timeouts_configured_and_enforced []).2.2 ⟨60, 300⟩ 0 301 []).2.1 (by decide),
   ((timeouts_configured_and_enforced []).2.2 ⟨60, 300⟩ 60 300 [5]).2.2
     (by decide) (by decide)⟩

/-- C10: test_gcs_access probes exactly the URL gs://bucket/file_path
built from its two parameters (its result depends only on the opener
behaviour at that URL), raises HTTPException 500 exactly when opening
that URL raises, and on success returns the dictionary with status
success and the probed url. -/
theorem test_gcs_access_spec :
    ∀ (opener : String → Except String SrcMeta) (bucket fp : String),
      (∀ o2 : String → Except String SrcMeta,
        opener ("gs://" ++ bucket ++ "/" ++ fp) = o2 ("gs://" ++ bucket ++ "/" ++ fp) →
        test_gcs_access opener bucket fp = test_gcs_access o2 bucket fp) ∧
      (∀ e : String,
        opener ("gs://" ++ bucket ++ "/" ++ fp) = Except.error e →
        test_gcs_access opener bucket fp =
          Except.error { status_code := 500, detail := "Failed to access GCS file: " ++ e }) ∧
      (∀ m : SrcMeta,
        opener ("gs://" ++ bucket ++ "/" ++ fp) = Except.ok m →
        test_gcs_access opener bucket fp =
          Except.ok { status := "success", url := "gs://" ++ bucket ++ "/" ++ fp
                    , driver := m.driver, width := m.width, height := m.height
                    , crs := m.crs, bounds := m.bounds }) := by
  intro opener bucket fp
  refine ⟨?_, ?_, ?_⟩
  · intro o2 h
    simp only [test_gcs_access]
    rw [h]
  · intro e h
    simp only [test_gcs_access]
    rw [h]
  · intro m h
    simp only [test_gcs_access]
    rw [h]

/-- An opener for the witness that always succeeds. -/
def openerOkEx : String → Except String SrcMeta :=
  fun _ => Except.ok ⟨"GTiff", 10, 20, "EPSG:4326", [0, 0, 1, 1]⟩

/-- An opener for the witness that always raises. -/
def openerErrEx : String → Except String SrcMeta :=
  fun _ => Except.error "boom"

/-- Witness for the test_gcs_access theorem at concrete inputs. -/
theorem test_gcs_access_spec_wit :
    test_gcs_access openerOkEx "b" "f.tif" =
      Except.ok { status := "success", url := "gs://" ++ "b" ++ "/" ++ "f.tif"
                , driver := "GTiff", width := 10, height := 20
                , crs := "EPSG:4326", bounds := [0, 0, 1, 1] } ∧
    test_gcs_access openerErrEx "b" "f.tif" =
      Except.error { status_code := 500, detail := "Failed to access GCS file: " ++ "boom" } :=
  ⟨(test_gcs_access_spec openerOkEx "b" "f.tif").2.2 _ rfl,
   (test_gcs_access_spec openerErrEx "b" "f.tif").2.1 "boom" rfl⟩

/-- Unfolding: a successful attempt ends the retry loop at once. -/
theorem fetchRangeAux_ok {f : Nat → FetchOutcome} {a : Nat} {b : List Nat}
    (base fuel : Nat) (d : List Nat) (h : f a = FetchOutcome.ok b) :
    fetchRangeAux f base a fuel d = (Except.ok b, a + 1, d) := by
  cases fuel <;> simp [fetchRangeAux, h]

/-- Unfolding: NotFound fails immediately. -/
theorem fetchRangeAux_notFound {f : Nat → FetchOutcome} {a : Nat}
    (base fuel : Nat) (d : List Nat) (h : f a = FetchOutcome.notFound) :
    fetchRangeAux f base a fuel d = (Except.error FetchError.notFound, a + 1, d) := by
  cases fuel <;> simp [fetchRangeAux, h]

/-- Unfolding: PermissionDenied fails immediately. -/
theorem fetchRangeAux_pd {f : Nat → FetchOutcome} {a : Nat}
    (base fuel : Nat) (d : List Nat) (h : f a = FetchOutcome.permissionDenied) :
    fetchRangeAux f base a fuel d = (Except.error FetchError.permissionDenied, a + 1, d) := by
  cases fuel <;> simp [fetchRangeAux, h]

/-- Unfolding: a transient outcome with retries left waits one backoff
delay and retries. -/
theorem fetchRangeAux_transient_step {f : Nat → FetchOutcome} {a : Nat}
    (base fuel : Nat) (d : List Nat) (h : f a = FetchOutcome.transient) :
    fetchRangeAux f base a (fuel + 1) d =
      fetchRangeAux f base (a + 1) fuel (d ++ [backoffDelayMs base a]) := by
  simp [fetchRangeAux, h]

/-- C5: FetchRange retries transient errors with exponential backoff
(each successive delay doubles) up to a bounded attempt count: a fetch
that fails twice with a Transient error and then succeeds returns the
correct bytes after exactly three attempts and two backoff delays,
while PermissionDenied and NotFound fail immediately with the classified
error after a single attempt and zero retries. -/
theorem fetchRange_retry_policy :
    ∀ (f : Nat → FetchOutcome) (limit base : Nat) (b : List Nat),
      (∀ k, backoffDelayMs base (k + 1) = 2 * backoffDelayMs base k) ∧
      (3 ≤ limit → f 0 = FetchOutcome.transient → f 1 = FetchOutcome.transient →
        f 2 = FetchOutcome.ok b →
        fetchRange f limit base =
          (Except.ok b, 3, [backoffDelayMs base 0, backoffDelayMs base 1])) ∧
      (f 0 = FetchOutcome.permissionDenied →
        fetchRange f limit base = (Except.error FetchError.permissionDenied, 1, [])) ∧
      (f 0 = FetchOutcome.notFound →
        fetchRange f limit base = (Except.error FetchError.notFound, 1, [])) := by
  intro f limit base b
  refine ⟨?_, ?_, ?_, ?_⟩
  · intro k
    simp [backoffDelayMs, Nat.pow_succ]
    ring
  · intro hlim h0 h1 h2
    obtain ⟨m, rfl⟩ := Nat.exists_eq_add_of_le hlim
    have hf : 3 + m - 1 = m + 1 + 1 := by omega
    unfold fetchRange
    rw [hf, fetchRangeAux_transient_step base (m + 1) [] h0,
        fetchRangeAux_transient_step base m _ h1,
        fetchRangeAux_ok base m _ h2]
    simp
  · intro h0
    unfold fetchRange
    rw [fetchRangeAux_pd base _ _ h0]
  · intro h0
    unfold fetchRange
    rw [fetchRangeAux_notFound base _ _ h0]

/-- A fetcher for the witness: transient twice, then the bytes. -/
def fTransEx : Nat → FetchOutcome :=
  fun n => if n < 2 then FetchOutcome.transient else FetchOutcome.ok [7]

/-- A fetcher for the witness: always PermissionDenied. -/
def fPdEx : Nat → FetchOutcome := fun _ => FetchOutcome.permissionDenied

/-- Witness for the retry theorem at concrete fetchers. -/
theorem fetchRange_retry_policy_wit :
    fetchRange fTransEx 5 10 = (Except.ok [7], 3, [10, 20]) ∧
    fetchRange fPdEx 5 10 = (Except.error FetchError.permissionDenied, 1, []) := by
  constructor
  · have h := (fetchRange_retry_policy fTransEx 5 10 [7]).2.1 (by decide) rfl rfl rfl
    simpa [backoffDelayMs] using h
  · exact (fetchRange_retry_policy fPdEx 5 10 []).2.2.1 rfl

/-- totalBytes distributes over append. -/
theorem totalBytes_append (l1 l2 : List CacheEntry) :
    totalBytes (l1 ++ l2) = totalBytes l1 + totalBytes l2 := by
  simp [totalBytes]

/-- After eviction, an incoming entry of `n` bytes fits in the budget. -/
theorem evictToFit_fits (budget n : Nat) (hn : n ≤ budget) :
    ∀ l : List CacheEntry, totalBytes (evictToFit budget n l) + n ≤ budget := by
  intro l
  induction l with
  | nil => simpa [evictToFit, totalBytes] using hn
  | cons e rest ih =>
      by_cases h : totalBytes (e :: rest) + n ≤ budget
      · simp [evictToFit, h]
      · simpa [evictToFit, h] using ih

/-- Eviction keeps only entries that were already present. -/
theorem mem_evictToFit (budget n : Nat) :
    ∀ (l : List CacheEntry) (e : CacheEntry), e ∈ evictToFit budget n l → e ∈ l := by
  intro l
  induction l with
  | nil => intro e hm; simp [evictToFit] at hm
  | cons a rest ih =>
      intro e hm
      rw [evictToFit] at hm
      split at hm
      · exact hm
      · exact List.mem_cons_of_mem a (ih e hm)

/-- Eviction drops a least-recently-used block from the front: the kept
entries are a suffix of the original recency-ordered list. -/
theorem evictToFit_suffix (budget n : Nat) :
    ∀ l : List CacheEntry, ∃ d, d ++ evictToFit budget n l = l := by
  intro l
  induction l with
  | nil => exact ⟨[], rfl⟩
  | cons a rest ih =>
      by_cases h : totalBytes (a :: rest) + n ≤ budget
      · exact ⟨[], by simp [evictToFit, h]⟩
      · obtain ⟨d, hd⟩ := ih
        exact ⟨a :: d, by simp [evictToFit, h, hd]⟩

/-- Lookup in a list whose only entry with the key sits at the end. -/
theorem find?_append_key (l : List CacheEntry) (k : String) (v : List Nat)
    (h : ∀ e ∈ l, (e.1 == k) = false) :
    List.find? (fun e => e.1 == k) (l ++ [(k, v)]) = some (k, v) := by
  induction l with
  | nil => simp [List.find?]
  | cons a rest ih =>
      have ha := h a (by simp)
      simp only [List.cons_append, List.find?, ha]
      exact ih (fun e he => h e (by simp [he]))

/-- Filtering away a key leaves no entry carrying it. -/
theorem filter_key_false (l : List CacheEntry) (k : String) :
    ∀ e ∈ l.filter (fun x => x.1 != k), (e.1 == k) = false := by
  intro e he
  have h := (List.mem_filter.mp he).2
  simpa [bne] using h

/-- Put rejects an entry that alone exceeds the total budget. -/
theorem cachePut_reject (c : TileCache) (k : String) (v : List Nat)
    (h : c.budget < v.length) : cachePut c k v = c := by
  simp [cachePut, h]

/-- Put inserts a fitting entry at the most-recently-used end after
evicting. -/
theorem cachePut_accept (c : TileCache) (k : String) (v : List Nat)
    (h : v.length ≤ c.budget) :
    (cachePut c k v).entries =
      evictToFit c.budget v.length (c.entries.filter (fun e => e.1 != k)) ++ [(k, v)] := by
  simp [cachePut, Nat.not_lt.mpr h]

/-- After an accepted Put the key is found with the stored bytes. -/
theorem cachePut_lookup (c : TileCache) (k : String) (v : List Nat)
    (h : v.length ≤ c.budget) :
    List.find? (fun e => e.1 == k) (cachePut c k v).entries = some (k, v) := by
  rw [cachePut_accept c k v h]
  exact find?_append_key _ _ _
    (fun e he => filter_key_false _ k e (mem_evictToFit _ _ _ e he))

/-- Put preserves the byte-budget invariant. -/
theorem cachePut_budget (c : TileCache) (k : String) (v : List Nat)
    (hinv : totalBytes c.entries ≤ c.budget) :
    totalBytes (cachePut c k v).entries ≤ c.budget := by
  by_cases h : c.budget < v.length
  · rw [cachePut_reject c k v h]; exact hinv
  · have h' : v.length ≤ c.budget := Nat.not_lt.mp h
    rw [cachePut_accept c k v h', totalBytes_append]
    have := evictToFit_fits c.budget v.length h'
      (c.entries.filter (fun e => e.1 != k))
    simpa [totalBytes, entrySize] using this

/-- C4: total cached bytes never exceed the configured byte budget:
every Put preserves the budget invariant, rejects outright an entry
that alone exceeds the total budget, and otherwise inserts the entry
after evicting a least-recently-used block (the surviving entries are a
suffix of the recency-ordered list). -/
theorem tileCache_put_budget_invariant :
    ∀ (c : TileCache) (k : String) (v : List Nat),
      totalBytes c.entries ≤ c.budget →
      totalBytes (cachePut c k v).entries ≤ c.budget ∧
      (c.budget < v.length → cachePut c k v = c) ∧
      (v.length ≤ c.budget →
        List.find? (fun e => e.1 == k) (cachePut c k v).entries = some (k, v) ∧
        ∃ dropped,
          dropped ++ evictToFit c.budget v.length (c.entries.filter (fun e => e.1 != k)) =
            c.entries.filter (fun e => e.1 != k)) := by
  intro c k v hinv
  refine ⟨cachePut_budget c k v hinv, cachePut_reject c k v, ?_⟩
  intro h
  exact ⟨cachePut_lookup c k v h, evictToFit_suffix c.budget v.length _⟩

/-- A concrete cache for the witness: two entries, four bytes total,
budget five. -/
def cacheEx : TileCache := { entries := [("a", [1, 2]), ("b", [3, 4])], budget := 5 }

/-- Witness for the budget-invariant theorem: inserting a three-byte
entry into `cacheEx` stays within budget and the entry is found. -/
theorem tileCache_put_budget_invariant_wit :
    totalBytes (cachePut cacheEx "c" [4, 4, 4]).entries ≤ cacheEx.budget ∧
    List.find? (fun e => e.1 == "c") (cachePut cacheEx "c" [4, 4, 4]).entries =
      some ("c", [4, 4, 4]) :=
  ⟨(tileCache_put_budget_invariant cacheEx "c" [4, 4, 4] (by decide)).1,
   ((tileCache_put_budget_invariant cacheEx "c" [4, 4, 4] (by decide)).2.2 (by decide)).1⟩

/-- A miss leaves the cache untouched. -/
theorem cacheGet_miss (c : TileCache) (k : String)
    (h : c.entries.find? (fun e => e.1 == k) = none) : cacheGet c k = (none, c) := by
  simp [cacheGet, h]

/-- A hit returns the stored bytes and refreshes recency. -/
theorem cacheGet_hit (c : TileCache) (k : String) (e : CacheEntry)
    (h : c.entries.find? (fun e => e.1 == k) = some e) :
    cacheGet c k =
      (some e.2, { c with entries := c.entries.filter (fun x => x.1 != k) ++ [e] }) := by
  simp [cacheGet, h]

/-- GetTile on a cache hit answers from the cache with zero fetches. -/
theorem getTile_hit (s : SourceModel) (c c2 : TileCache) (z x y : Nat) (b : List Nat)
    (hin : inRange s z x y = true)
    (h : cacheGet c (cacheKey z x y) = (some b, c2)) :
    getTile s c z x y = (Except.ok b, c2, 0) := by
  simp [getTile, hin, h]

/-- GetTile on a miss runs the pipeline and stores the result. -/
theorem getTile_miss (s : SourceModel) (c c2 : TileCache) (z x y : Nat)
    (hin : inRange s z x y = true)
    (h : cacheGet c (cacheKey z x y) = (none, c2)) :
    getTile s c z x y =
      (Except.ok (s.tileBytes z x y),
       cachePut c2 (cacheKey z x y) (s.tileBytes z x y), s.tileFetches z x y) := by
  simp [getTile, hin, h]

/-- C2: for every tile request whose coordinates lie outside the
extent or zoom range of the source, GetTile returns the classified
OutOfRange error, leaves the cache untouched, and performs zero
byte-range fetches. -/
theorem getTile_outOfRange_no_fetch :
    ∀ (s : SourceModel) (c : TileCache) (z x y : Nat),
      inRange s z x y = false →
      getTile s c z x y = (Except.error TileError.outOfRange, c, 0) := by
  intro s c z x y h
  simp [getTile, h]

/-- A concrete source with maximum zoom 3 for the out-of-range witness. -/
def srcEx : SourceModel :=
  { minZoom := 0, maxZoom := 3
  , extentX := fun z => (0, 2 ^ z - 1), extentY := fun z => (0, 2 ^ z - 1)
  , tileBytes := fun _ _ _ => [1, 2, 3], tileFetches := fun _ _ _ => 2 }

/-- Witness: requesting zoom 5 against a source whose maximum zoom is 3
yields OutOfRange with zero fetches. -/
theorem getTile_outOfRange_no_fetch_wit :
    inRange srcEx 5 0 0 = false ∧
    getTile srcEx { entries := [], budget := 100 } 5 0 0 =
      (Except.error TileError.outOfRange, { entries := [], budget := 100 }, 0) :=
  ⟨by decide,
   getTile_outOfRange_no_fetch srcEx { entries := [], budget := 100 } 5 0 0 (by decide)⟩

/-- A source whose single valid tile is one byte, fetched in one range
read. -/
def srcCexC3 : SourceModel :=
  { minZoom := 0, maxZoom := 0
  , extentX := fun _ => (0, 0), extentY := fun _ => (0, 0)
  , tileBytes := fun _ _ _ => [1], tileFetches := fun _ _ _ => 1 }

/-- A cache with byte budget zero: no entry can ever be stored. -/
def cacheCexC3 : TileCache := { entries := [], budget := 0 }

/-- C3 counterexample: with a byte budget the tile does not fit (budget
zero, one-byte tile), the request (0,0,0) is valid, yet the second of
two sequential identical GetTile calls still performs one byte-range
fetch — Put rejected the oversized entry, so the second call is not
answered from the TileCache.  The claim as stated over all valid
requests is therefore false. -/
theorem getTile_memoization_cex :
    inRange srcCexC3 0 0 0 = true ∧
    (getTile srcCexC3 (getTile srcCexC3 cacheCexC3 0 0 0).2.1 0 0 0).2.2 = 1 := by
  constructor
  · decide
  · decide

/-- C3 (amended): for every valid request whose encoded tile fits the
configured byte budget, two sequential identical GetTile calls produce
byte-identical output and the second is answered from the TileCache
with zero byte-range fetches. -/
theorem getTile_idempotent_memoized :
    ∀ (s : SourceModel) (c : TileCache) (z x y : Nat),
      inRange s z x y = true →
      (s.tileBytes z x y).length ≤ c.budget →
      ∃ b : List Nat,
        (getTile s c z x y).1 = Except.ok b ∧
        (getTile s (getTile s c z x y).2.1 z x y).1 = Except.ok b ∧
        (getTile s (getTile s c z x y).2.1 z x y).2.2 = 0 := by
  intro s c z x y hin hfit
  cases hfind : c.entries.find? (fun e => e.1 == cacheKey z x y) with
  | none =>
      have h1 := cacheGet_miss c (cacheKey z x y) hfind
      have hg1 := getTile_miss s c c z x y hin h1
      have hlk := cachePut_lookup c (cacheKey z x y) (s.tileBytes z x y) hfit
      have h2 := cacheGet_hit (cachePut c (cacheKey z x y) (s.tileBytes z x y))
        (cacheKey z x y) (cacheKey z x y, s.tileBytes z x y) hlk
      have hg2 := getTile_hit s (cachePut c (cacheKey z x y) (s.tileBytes z x y)) _
        z x y (s.tileBytes z x y) hin h2
      refine ⟨s.tileBytes z x y, ?_, ?_, ?_⟩
      · rw [hg1]
      · rw [hg1]; rw [hg2]
      · rw [hg1]; rw [hg2]
  | some e =>
      obtain ⟨ek, ev⟩ := e
      have hek : ek = cacheKey z x y := by
        have := List.find?_some hfind
        simpa using this
      subst hek
      have h1 := cacheGet_hit c (cacheKey z x y) (cacheKey z x y, ev) hfind
      have hg1 := getTile_hit s c _ z x y ev hin h1
      have hfind2 :
          (c.entries.filter (fun p => p.1 != cacheKey z x y) ++
            [(cacheKey z x y, ev)]).find? (fun p => p.1 == cacheKey z x y) =
            some (cacheKey z x y, ev) :=
        find?_append_key _ _ _ (fun q hq => filter_key_false _ _ q hq)
      have h2 := cacheGet_hit
        { c with entries := c.entries.filter (fun p => p.1 != cacheKey z x y) ++
            [(cacheKey z x y, ev)] }
        (cacheKey z x y) (cacheKey z x y, ev) hfind2
      have hg2 := getTile_hit s _ _ z x y ev hin h2
      refine ⟨ev, ?_, ?_, ?_⟩
      · rw [hg1]
      · rw [hg1]; rw [hg2]
      · rw [hg1]; rw [hg2]

/-- A concrete source for the idempotence witness: two-byte tiles. -/
def srcWitC3 : SourceModel :=
  { minZoom := 0, maxZoom := 2
  , extentX := fun z => (0, 2 ^ z - 1), extentY := fun z => (0, 2 ^ z - 1)
  , tileBytes := fun z x y => [z + x + y, 9], tileFetches := fun _ _ _ => 4 }

/-- An empty cache with budget ten for the idempotence witness. -/
def cacheWitC3 : TileCache := { entries := [], budget := 10 }

/-- Witness: at the valid request (1,1,0) with a two-byte tile and
budget ten, the second call is served from the cache. -/
theorem getTile_idempotent_memoized_wit :
    ∃ b : List Nat,
      (getTile srcWitC3 cacheWitC3 1 1 0).1 = Except.ok b ∧
      (getTile srcWitC3 (getTile srcWitC3 cacheWitC3 1 1 0).2.1 1 1 0).1 = Except.ok b ∧
      (getTile srcWitC3 (getTile srcWitC3 cacheWitC3 1 1 0).2.1 1 1 0).2.2 = 0 :=
  getTile_idempotent_memoized srcWitC3 cacheWitC3 1 1 0 (by decide) (by decide)

/-- Arrivals while a pipeline is in flight only join the waiter list;
they never start another execution. -/
theorem coArrive_run (ids : List Nat) :
    ∀ (l : List Nat) (st : Nat),
      List.foldl coArrive { waiting := some l, starts := st } ids =
        { waiting := some (ids.reverse ++ l), starts := st } := by
  induction ids with
  | nil => intro l st; simp
  | cons a rest ih =>
      intro l st
      have step : coArrive { waiting := some l, starts := st } a =
          { waiting := some (a :: l), starts := st } := rfl
      simp only [List.foldl, step, ih]
      simp

/-- C6: when N callers request the same cache key concurrently (any
arrival order, modelled as a fold of arrivals), exactly one pipeline
execution is started; when that single execution completes, every one
of the N callers is delivered the same result and the in-flight entry
is removed. -/
theorem coalescer_single_execution :
    ∀ (α : Type) (ids : List Nat) (r : α),
      ids ≠ [] →
      (List.foldl coArrive coInit ids).starts = 1 ∧
      (coComplete (List.foldl coArrive coInit ids) r).1.waiting = none ∧
      (∀ p ∈ (coComplete (List.foldl coArrive coInit ids) r).2, p.2 = r) ∧
      (coComplete (List.foldl coArrive coInit ids) r).2.length = ids.length ∧
      ∀ i ∈ ids, (i, r) ∈ (coComplete (List.foldl coArrive coInit ids) r).2 := by
  intro α ids r hne
  cases ids with
  | nil => exact absurd rfl hne
  | cons a rest =>
      have hstep : coArrive coInit a = { waiting := some [a], starts := 1 } := rfl
      have hrun : List.foldl coArrive coInit (a :: rest) =
          { waiting := some (rest.reverse ++ [a]), starts := 1 } := by
        simp only [List.foldl, hstep]
        exact coArrive_run rest [a] 1
      rw [hrun]
      refine ⟨rfl, rfl, ?_, ?_, ?_⟩
      · intro p hp
        simp only [coComplete, List.mem_map] at hp
        obtain ⟨i, _, hi⟩ := hp
        rw [← hi]
      · simp [coComplete]
      · intro i hi
        simp only [coComplete, List.mem_map]
        refine ⟨i, ?_, rfl⟩
        rcases List.mem_cons.mp hi with h | h
        · simp [h]
        · simp [h]

/-- Witness: three concurrent callers 3, 5, 8 trigger exactly one
pipeline start, all are answered with the result 7, and the in-flight
entry is gone afterwards. -/
theorem coalescer_single_execution_wit :
    (List.foldl coArrive coInit [3, 5, 8]).starts = 1 ∧
    (coComplete (List.foldl coArrive coInit [3, 5, 8]) 7).1.waiting = none ∧
    (coComplete (List.foldl coArrive coInit [3, 5, 8]) 7).2.length = 3 ∧
    (3, 7) ∈ (coComplete (List.foldl coArrive coInit [3, 5, 8]) 7).2 :=
  ⟨(coalescer_single_execution Nat [3, 5, 8] 7 (by decide)).1,
   (coalescer_single_execution Nat [3, 5, 8] 7 (by decide)).2.1,
   (coalescer_single_execution Nat [3, 5, 8] 7 (by decide)).2.2.2.1,
   (coalescer_single_execution Nat [3, 5, 8] 7 (by decide)).2.2.2.2 3 (by decide)⟩
